import Mathlib

/-!
Verification of `sim_energy_system_cap.py`, a solar-charged capacitor
energy-system simulator.  The script's floating-point scalars are modelled
as exact rationals; `math.sqrt`, whose value is irrational in general, is
modelled as an explicit function parameter `sq : ℚ → ℚ` supplied to every
definition that the source's square root flows into.  Theorems assume of
`sq` only properties that the real square root satisfies (such as mapping
non-negative inputs to non-negative outputs), and witnesses instantiate
`sq` with a concrete function having those properties.
-/

namespace SimEnergySystemCap

/-- The ten positional parameters of the script (module-level variables
parsed from `sys.argv`, source lines 33-43). -/
structure Params where
  sa_m2 : ℚ
  eff : ℚ
  voc : ℚ
  c_f : ℚ
  r_esr : ℚ
  q0_c : ℚ
  p_on_w : ℚ
  v_thresh : ℚ
  dt_s : ℚ
  dur_s : ℚ

/-- The mutable module-level simulation state (source lines 62-66):
elapsed time `t_s`, stored charge `qt_c`, the constant short-circuit
current `isc_a`, the per-step source current `i1_a`, the load power mode
`p_mode_w`, and the node voltage `node_v`. -/
structure State where
  t_s : ℚ
  qt_c : ℚ
  isc_a : ℚ
  i1_a : ℚ
  p_mode_w : ℚ
  node_v : ℚ

/-- Solar irradiance constant, source line 30: `irr_w_m2 = 1366.1`. -/
def irr_w_m2 : ℚ := 13661 / 10

/-- Source lines 49-51: `(irr_w_m2 * sa_m2 * eff) / voc`. -/
def calc_solar_current (irr sa eff voc : ℚ) : ℚ :=
  irr * sa * eff / voc

/-- Source lines 53-55: `(q_c / c_f + i_a * esr_ohm) ** 2 - 4 * power_w * esr_ohm`. -/
def calc_node_discr (q_c c_f i_a esr_ohm power_w : ℚ) : ℚ :=
  (q_c / c_f + i_a * esr_ohm) ^ 2 - 4 * power_w * esr_ohm

/-- Source lines 57-59: `(q_c / c_f + i_a * esr_ohm + math.sqrt(disc)) / 2`,
with `math.sqrt` abstracted as `sq`. -/
def calc_node_voltage (sq : ℚ → ℚ) (disc q_c c_f i_a esr_ohm : ℚ) : ℚ :=
  (q_c / c_f + i_a * esr_ohm + sq disc) / 2

/-- The discriminant-fallback pattern appearing twice in the source
(lines 68-71 and 91-95): compute the discriminant with power `p`; if it
is negative, disable the power mode (set it to 0) and recompute.
Returns the resulting (power mode, discriminant) pair. -/
def resolvePower (q c i r p : ℚ) : ℚ × ℚ :=
  let d := calc_node_discr q c i r p
  if d < 0 then (0, calc_node_discr q c i r 0) else (p, d)

/-- Initialization, source lines 61-78: set `isc_a`, start with
`p_mode_w = p_on_w`, solve the node voltage with the discriminant
fallback, zero the source current if `voc <= node_v and i1_a != 0`,
and zero the power mode if `node_v < v_thresh`. -/
def initState (sq : ℚ → ℚ) (P : Params) : State :=
  let isc := calc_solar_current irr_w_m2 P.sa_m2 P.eff P.voc
  let pd := resolvePower P.q0_c P.c_f isc P.r_esr P.p_on_w
  let v := calc_node_voltage sq pd.2 P.q0_c P.c_f isc P.r_esr
  { t_s := 0
    qt_c := P.q0_c
    isc_a := isc
    i1_a := if P.voc ≤ v ∧ isc ≠ 0 then 0 else isc
    p_mode_w := if v < P.v_thresh then 0 else pd.1
    node_v := v }

/-- Source line 83: `i3_a = p_mode_w / node_v if node_v > 0 else 0.0`. -/
def stepI3 (s : State) : ℚ :=
  if 0 < s.node_v then s.p_mode_w / s.node_v else 0

/-- Source lines 84-86: `qt_c += (i1_a - i3_a) * dt_s` followed by the
clamp `if qt_c < 0.0: qt_c = 0.0`. -/
def stepQ (P : Params) (s : State) : ℚ :=
  let q1 := s.qt_c + (s.i1_a - stepI3 s) * P.dt_s
  if q1 < 0 then 0 else q1

/-- Source lines 89-90: hysteresis turn-on,
`if p_mode_w == 0.0 and node_v >= voc: p_mode_w = p_on_w`. -/
def stepP1 (P : Params) (s : State) : ℚ :=
  if s.p_mode_w = 0 ∧ P.voc ≤ s.node_v then P.p_on_w else s.p_mode_w

/-- Source lines 91-95: discriminant with the updated charge and
`i1_a = isc_a` (line 87), with the negative-discriminant fallback. -/
def stepPD (P : Params) (s : State) : ℚ × ℚ :=
  resolvePower (stepQ P s) P.c_f s.isc_a P.r_esr (stepP1 P s)

/-- Source line 97: the re-solved node voltage. -/
def stepV (sq : ℚ → ℚ) (P : Params) (s : State) : ℚ :=
  calc_node_voltage sq (stepPD P s).2 (stepQ P s) P.c_f s.isc_a P.r_esr

/-- One iteration of the `while` loop body, source lines 83-105: returns
the successor state and the emitted sample `(t_s, node_v)` (appended to
the log at line 104 before `t_s += dt_s`).  Lines 99-100 zero the source
current when `voc <= node_v and i1_a != 0` (with `i1_a = isc_a` from
line 87); lines 102-103 zero the power mode when `node_v < v_thresh`. -/
def step (sq : ℚ → ℚ) (P : Params) (s : State) : State × (ℚ × ℚ) :=
  ({ t_s := s.t_s + P.dt_s
     qt_c := stepQ P s
     isc_a := s.isc_a
     i1_a := if P.voc ≤ stepV sq P s ∧ s.isc_a ≠ 0 then 0 else s.isc_a
     p_mode_w := if stepV sq P s < P.v_thresh then 0 else (stepPD P s).1
     node_v := stepV sq P s },
   (s.t_s, stepV sq P s))

/-- The `while t_s < dur_s` loop, source lines 82-105, with explicit
fuel (the Python loop does not terminate when `dt_s ≤ 0 < dur_s`;
with sufficient fuel and `dt_s > 0` the fuel never runs out). -/
def simLoop (sq : ℚ → ℚ) (P : Params) : Nat → State → List (ℚ × ℚ)
  | 0, _ => []
  | Nat.succ n, s =>
    if s.t_s < P.dur_s then (step sq P s).2 :: simLoop sq P n (step sq P s).1
    else []

/-- Fuel sufficient for the whole run when `dt_s > 0`. -/
def fuelFor (P : Params) : Nat :=
  (Int.ceil (P.dur_s / P.dt_s)).toNat + 1

/-- The complete simulation: initialization followed by the loop; its
value is the `log` list written to `log.csv` (source lines 80-112). -/
def simRun (sq : ℚ → ℚ) (P : Params) : List (ℚ × ℚ) :=
  simLoop sq P (fuelFor P) (initState sq P)

/-- The internal state after `n` iterations of the loop body. -/
def iter (sq : ℚ → ℚ) (P : Params) : Nat → State
  | 0 => initState sq P
  | Nat.succ n => (step sq P (iter sq P n)).1

/-- The argument gate, source lines 33 and 44-46: the script proceeds
if and only if `len(sys.argv) == 11`; the parameter values themselves
are never inspected. -/
def argcGate (argc : Nat) : Bool :=
  argc == 11

/-- Modelled from the spec: the parameter-validation contract the spec
assigns to the parameter-acquisition collaborator (reject when
efficiency is outside (0,1], any parameter is negative, `dt = 0`, or
`C = 0` with nonzero duration).  No such validation exists in the
source; this predicate exists only to state what the spec requires. -/
def specValidParams (P : Params) : Prop :=
  0 < P.eff ∧ P.eff ≤ 1 ∧ 0 ≤ P.sa_m2 ∧ 0 ≤ P.voc ∧ 0 ≤ P.c_f ∧
  0 ≤ P.r_esr ∧ 0 ≤ P.q0_c ∧ 0 ≤ P.p_on_w ∧ 0 ≤ P.v_thresh ∧
  0 ≤ P.dt_s ∧ 0 ≤ P.dur_s ∧ P.dt_s ≠ 0 ∧ (P.dur_s ≠ 0 → P.c_f ≠ 0)

/-- A concrete model of `math.sqrt` used by witnesses: it maps every
input to 0, which is non-negative, the only property the theorems
assume of the square root. -/
def sqZero : ℚ → ℚ := fun _ => 0

/-! ### Spec-side definitions for the refinement claim C7

The following definitions are written from the spec's eight-step
per-step update list (spec section 4.1), to be compared against the
source-derived `step` above. -/

/-- Working context for the spec's per-step operation list: the state
fields together with the step's load current `i3` and the emitted
samples `out`. -/
structure SpecCtx where
  t : ℚ
  q : ℚ
  i1 : ℚ
  p : ℚ
  v : ℚ
  i3 : ℚ
  out : List (ℚ × ℚ)

/-- Spec node-voltage solve: discriminant `(q/C + i_in*r)^2 - 4*p*r`;
if negative, force `p = 0` and recompute (the quadratic term drops
out); voltage is the larger root `(q/C + i_in*r + sqrt disc)/2`.
Returns the (possibly zeroed) load power and the voltage. -/
def specSolve (sq : ℚ → ℚ) (q c i r p : ℚ) : ℚ × ℚ :=
  let d := (q / c + i * r) ^ 2 - 4 * p * r
  if d < 0 then (0, (q / c + i * r + sq ((q / c + i * r) ^ 2)) / 2)
  else (p, (q / c + i * r + sq d) / 2)

/-- Spec step 1: load current `i_load = p_mode / v` if `v > 0` else 0. -/
def op1 (c : SpecCtx) : SpecCtx :=
  { c with i3 := if c.v > 0 then c.p / c.v else 0 }

/-- Spec step 2: integrate charge `q += (i_in - i_load) * dt` and clamp
to be at least 0. -/
def op2 (P : Params) (c : SpecCtx) : SpecCtx :=
  { c with q := max 0 (c.q + (c.i1 - c.i3) * P.dt_s) }

/-- Spec step 3: reset source current to `Isc`. -/
def op3 (isc : ℚ) (c : SpecCtx) : SpecCtx :=
  { c with i1 := isc }

/-- Spec step 4: hysteresis turn-on — if the load is off (`p == 0`) and
the previous node voltage satisfies `v ≥ Voc`, turn the load on. -/
def op4 (P : Params) (c : SpecCtx) : SpecCtx :=
  { c with p := if c.p = 0 ∧ c.v ≥ P.voc then P.p_on_w else c.p }

/-- Spec step 5: re-solve the node voltage with the updated charge,
source current and power mode, with the infeasible-discriminant
fallback. -/
def op5 (sq : ℚ → ℚ) (P : Params) (c : SpecCtx) : SpecCtx :=
  let pv := specSolve sq c.q P.c_f c.i1 P.r_esr c.p
  { c with p := pv.1, v := pv.2 }

/-- Spec step 6: source-current clamp — if `Voc ≤ v` and `i_in ≠ 0`,
zero the source current. -/
def op6 (P : Params) (c : SpecCtx) : SpecCtx :=
  { c with i1 := if P.voc ≤ c.v ∧ c.i1 ≠ 0 then 0 else c.i1 }

/-- Spec step 7: hysteresis turn-off — if `v < v_thresh`, force the
power mode to 0. -/
def op7 (P : Params) (c : SpecCtx) : SpecCtx :=
  { c with p := if c.v < P.v_thresh then 0 else c.p }

/-- Spec step 8: emit `(t, v)` and advance `t += dt`. -/
def op8 (P : Params) (c : SpecCtx) : SpecCtx :=
  { c with out := c.out ++ [(c.t, c.v)], t := c.t + P.dt_s }

/-- The spec's eight per-step operations composed in order. -/
def specOps (sq : ℚ → ℚ) (P : Params) (isc : ℚ) (c : SpecCtx) : SpecCtx :=
  op8 P (op7 P (op6 P (op5 sq P (op4 P (op3 isc (op2 P (op1 c)))))))

/-- The working context corresponding to a simulation state, with no
load current computed yet and nothing emitted. -/
def ctxOf (s : State) : SpecCtx :=
  { t := s.t_s, q := s.qt_c, i1 := s.i1_a, p := s.p_mode_w,
    v := s.node_v, i3 := 0, out := [] }

/-! ### Relational presentation of the loop for the determinism claim C9 -/

/-- The loop body of source lines 83-105 as a relation between the
incoming state, the outgoing state and the emitted sample: each line's
assignment is an existentially quantified intermediate value constrained
by the corresponding equation. -/
def StepRel (sq : ℚ → ℚ) (P : Params) (s s2 : State) (smp : ℚ × ℚ) : Prop :=
  ∃ i3 q1 q2 p1 pd v i1f pf,
    i3 = (if 0 < s.node_v then s.p_mode_w / s.node_v else 0) ∧
    q1 = s.qt_c + (s.i1_a - i3) * P.dt_s ∧
    q2 = (if q1 < 0 then 0 else q1) ∧
    p1 = (if s.p_mode_w = 0 ∧ P.voc ≤ s.node_v then P.p_on_w else s.p_mode_w) ∧
    pd = resolvePower q2 P.c_f s.isc_a P.r_esr p1 ∧
    v = calc_node_voltage sq pd.2 q2 P.c_f s.isc_a P.r_esr ∧
    i1f = (if P.voc ≤ v ∧ s.isc_a ≠ 0 then 0 else s.isc_a) ∧
    pf = (if v < P.v_thresh then 0 else pd.1) ∧
    s2 = { t_s := s.t_s + P.dt_s, qt_c := q2, isc_a := s.isc_a,
           i1_a := i1f, p_mode_w := pf, node_v := v } ∧
    smp = (s.t_s, v)

/-- The whole `while` loop as a relation between a starting state and
the list of samples it emits. -/
inductive RunRel (sq : ℚ → ℚ) (P : Params) : State → List (ℚ × ℚ) → Prop
  | done (s : State) (h : ¬ s.t_s < P.dur_s) : RunRel sq P s []
  | more (s s2 : State) (smp : ℚ × ℚ) (rest : List (ℚ × ℚ))
      (hlt : s.t_s < P.dur_s) (hstep : StepRel sq P s s2 smp)
      (hrest : RunRel sq P s2 rest) : RunRel sq P s (smp :: rest)

/-! ### Concrete inputs used by witnesses and counterexamples -/

/-- A valid parameter set with `dt = 1` and `dur = 1` (one loop
iteration, and `dur` an exact multiple of `dt`). -/
def Pone : Params :=
  { sa_m2 := 1, eff := 1, voc := 1, c_f := 1, r_esr := 0, q0_c := 0,
    p_on_w := 0, v_thresh := 0, dt_s := 1, dur_s := 1 }

/-- A valid parameter set with `dt = 1` and `dur = 5/2` (three loop
iterations, `dur` not a multiple of `dt`). -/
def Phalf : Params :=
  { sa_m2 := 1, eff := 1, voc := 1, c_f := 1, r_esr := 0, q0_c := 0,
    p_on_w := 0, v_thresh := 0, dt_s := 1, dur_s := 5/2 }

/-- A parameter set whose initial node voltage reaches `voc` (large
initial charge), for the initial source-current clamp claim. -/
def Pq10 : Params :=
  { sa_m2 := 1, eff := 1, voc := 1, c_f := 1, r_esr := 0, q0_c := 10,
    p_on_w := 0, v_thresh := 0, dt_s := 1, dur_s := 1 }

/-- An invalid parameter set per the spec (efficiency 2 lies outside
(0,1]); every other entry is valid. -/
def Pbad : Params :=
  { sa_m2 := 1, eff := 2, voc := 1, c_f := 1, r_esr := 0, q0_c := 0,
    p_on_w := 0, v_thresh := 0, dt_s := 1, dur_s := 1 }

/-- Parameters for exercising the hysteresis step. -/
def Phys : Params :=
  { sa_m2 := 1, eff := 1, voc := 1, c_f := 1, r_esr := 0, q0_c := 0,
    p_on_w := 2, v_thresh := 0, dt_s := 1, dur_s := 10 }

/-- A state with the load off and the node voltage at `voc`, for
exercising the hysteresis turn-on. -/
def shys : State :=
  { t_s := 0, qt_c := 3, isc_a := 1, i1_a := 1, p_mode_w := 0, node_v := 1 }

/-! ### Helper lemmas -/

/-- The zero-load discriminant is a perfect square minus zero, hence
non-negative. -/
lemma calc_node_discr_zero_nonneg (q c i r : ℚ) : 0 ≤ calc_node_discr q c i r 0 := by
  unfold calc_node_discr
  have h := sq_nonneg (q / c + i * r)
  linarith

/-- The discriminant produced by the fallback is always non-negative:
the argument handed to the square root is never negative. -/
lemma resolvePower_snd_nonneg (q c i r p : ℚ) : 0 ≤ (resolvePower q c i r p).2 := by
  unfold resolvePower
  by_cases h : calc_node_discr q c i r p < 0
  · simpa [h] using calc_node_discr_zero_nonneg q c i r
  · simpa [h] using not_lt.mp h

/-- The integrated-and-clamped charge is never negative. -/
lemma stepQ_nonneg (P : Params) (s : State) : 0 ≤ stepQ P s := by
  unfold stepQ
  dsimp only
  split_ifs with h
  · exact le_refl 0
  · exact not_lt.mp h

lemma stepPD_snd_nonneg (P : Params) (s : State) : 0 ≤ (stepPD P s).2 := by
  unfold stepPD
  exact resolvePower_snd_nonneg _ _ _ _ _

/-- The re-solved node voltage is non-negative whenever the stored
short-circuit current is, the capacitance and ESR are non-negative,
and the square-root model preserves non-negativity. -/
lemma stepV_nonneg (sq : ℚ → ℚ) (P : Params) (s : State)
    (hi : 0 ≤ s.isc_a) (hc : 0 ≤ P.c_f) (hr : 0 ≤ P.r_esr)
    (hsq : ∀ x : ℚ, 0 ≤ x → 0 ≤ sq x) : 0 ≤ stepV sq P s := by
  have h1 : 0 ≤ stepQ P s / P.c_f := div_nonneg (stepQ_nonneg P s) hc
  have h2 : 0 ≤ s.isc_a * P.r_esr := mul_nonneg hi hr
  have h3 : 0 ≤ sq (stepPD P s).2 := hsq _ (stepPD_snd_nonneg P s)
  unfold stepV calc_node_voltage
  linarith

/-- The short-circuit current computed at initialization is
non-negative for non-negative parameters. -/
lemma calc_solar_current_nonneg (sa eff voc : ℚ)
    (hsa : 0 ≤ sa) (heff : 0 ≤ eff) (hvoc : 0 ≤ voc) :
    0 ≤ calc_solar_current irr_w_m2 sa eff voc := by
  unfold calc_solar_current irr_w_m2
  positivity

/-- `step` never changes the stored short-circuit current. -/
lemma step_isc (sq : ℚ → ℚ) (P : Params) (s : State) :
    (step sq P s).1.isc_a = s.isc_a := rfl

/-- Every sample a loop suffix emits has a non-negative voltage,
provided the running state carries a non-negative short-circuit
current. -/
lemma simLoop_snd_nonneg (sq : ℚ → ℚ) (P : Params)
    (hc : 0 ≤ P.c_f) (hr : 0 ≤ P.r_esr)
    (hsq : ∀ x : ℚ, 0 ≤ x → 0 ≤ sq x) :
    ∀ (fuel : Nat) (s : State), 0 ≤ s.isc_a →
      ∀ x ∈ simLoop sq P fuel s, 0 ≤ x.2 := by
  intro fuel
  induction fuel with
  | zero => intro s _ x hx; simp [simLoop] at hx
  | succ n ih =>
      intro s hi x hx
      rw [simLoop] at hx
      by_cases hcond : s.t_s < P.dur_s
      · rw [if_pos hcond] at hx
        rcases List.mem_cons.mp hx with h | h
        · subst h
          exact stepV_nonneg sq P s hi hc hr hsq
        · exact ih (step sq P s).1 (by rw [step_isc]; exact hi) x h
      · rw [if_neg hcond] at hx
        simp at hx

/-- Every emitted sample time is strictly below the duration. -/
lemma simLoop_fst_lt (sq : ℚ → ℚ) (P : Params) :
    ∀ (fuel : Nat) (s : State), ∀ x ∈ simLoop sq P fuel s, x.1 < P.dur_s := by
  intro fuel
  induction fuel with
  | zero => intro s x hx; simp [simLoop] at hx
  | succ n ih =>
      intro s x hx
      rw [simLoop] at hx
      by_cases hcond : s.t_s < P.dur_s
      · rw [if_pos hcond] at hx
        rcases List.mem_cons.mp hx with h | h
        · subst h
          exact hcond
        · exact ih (step sq P s).1 x h
      · rw [if_neg hcond] at hx
        simp at hx

/-- With positive `dt` and sufficient fuel, a loop suffix starting at
time `t` emits exactly `max 0 (ceil ((dur - t)/dt))` samples, at times
`t`, `t + dt`, `t + 2*dt`, ... -/
lemma simLoop_map_fst (sq : ℚ → ℚ) (P : Params) (hdt : 0 < P.dt_s) :
    ∀ (fuel : Nat) (s : State),
      (Int.ceil ((P.dur_s - s.t_s) / P.dt_s)).toNat ≤ fuel →
      (simLoop sq P fuel s).map Prod.fst
        = (List.range ((Int.ceil ((P.dur_s - s.t_s) / P.dt_s)).toNat)).map
            (fun (k : Nat) => s.t_s + (k : ℚ) * P.dt_s) := by
  intro fuel
  induction fuel with
  | zero =>
      intro s hs
      have h0 : (Int.ceil ((P.dur_s - s.t_s) / P.dt_s)).toNat = 0 := Nat.le_zero.mp hs
      simp [simLoop, h0]
  | succ n ih =>
      intro s hs
      by_cases hcond : s.t_s < P.dur_s
      · have hpos : (0:ℚ) < (P.dur_s - s.t_s) / P.dt_s :=
          div_pos (by linarith) hdt
        have hceil : 0 < Int.ceil ((P.dur_s - s.t_s) / P.dt_s) := Int.ceil_pos.mpr hpos
        have hquot : (P.dur_s - (s.t_s + P.dt_s)) / P.dt_s
            = (P.dur_s - s.t_s) / P.dt_s - 1 := by
          field_simp
          ring
        have hceil2 : Int.ceil ((P.dur_s - (s.t_s + P.dt_s)) / P.dt_s)
            = Int.ceil ((P.dur_s - s.t_s) / P.dt_s) - 1 := by
          rw [hquot]
          have := Int.ceil_sub_int ((P.dur_s - s.t_s) / P.dt_s) 1
          push_cast at this
          exact this
        have hstept : (step sq P s).1.t_s = s.t_s + P.dt_s := rfl
        have hN : (Int.ceil ((P.dur_s - s.t_s) / P.dt_s)).toNat
            = (Int.ceil ((P.dur_s - (step sq P s).1.t_s) / P.dt_s)).toNat + 1 := by
          rw [hstept, hceil2]; omega
        have hfuel : (Int.ceil ((P.dur_s - (step sq P s).1.t_s) / P.dt_s)).toNat ≤ n := by
          omega
        rw [simLoop, if_pos hcond, List.map_cons, ih (step sq P s).1 hfuel, hN,
          List.range_succ_eq_map, List.map_cons, List.map_map]
        refine congrArg₂ List.cons ?_ ?_
        · simp [step]
        · rw [hstept]
          refine List.map_congr_left ?_
          intro k _
          simp only [Function.comp_apply]
          push_cast
          ring
      · have hle : (P.dur_s - s.t_s) / P.dt_s ≤ 0 :=
          div_nonpos_of_nonpos_of_nonneg (by linarith) hdt.le
        have h0 : Int.ceil ((P.dur_s - s.t_s) / P.dt_s) ≤ 0 := by
          rw [show (0:ℤ) = Int.ceil (0:ℚ) by simp]
          exact Int.ceil_mono hle
        have h0n : (Int.ceil ((P.dur_s - s.t_s) / P.dt_s)).toNat = 0 := by omega
        simp [simLoop, if_neg hcond, h0n]

/-- The first component of the fallback is either 0 or the power it was
given. -/
lemma resolvePower_fst (q c i r p : ℚ) :
    (resolvePower q c i r p).1 = 0 ∨ (resolvePower q c i r p).1 = p := by
  unfold resolvePower
  dsimp only
  split_ifs with h
  · exact Or.inl rfl
  · exact Or.inr rfl

/-- After one loop iteration the power mode is 0 or the on-state value,
provided it was before the iteration. -/
lemma step_pmode_binary (sq : ℚ → ℚ) (P : Params) (s : State)
    (hbin : s.p_mode_w = 0 ∨ s.p_mode_w = P.p_on_w) :
    (step sq P s).1.p_mode_w = 0 ∨ (step sq P s).1.p_mode_w = P.p_on_w := by
  show (if stepV sq P s < P.v_thresh then 0 else (stepPD P s).1) = 0 ∨
    (if stepV sq P s < P.v_thresh then 0 else (stepPD P s).1) = P.p_on_w
  split_ifs with hv
  · exact Or.inl rfl
  · rcases resolvePower_fst (stepQ P s) P.c_f s.isc_a P.r_esr (stepP1 P s) with h | h
    · exact Or.inl h
    · rw [show (stepPD P s).1 = (resolvePower (stepQ P s) P.c_f s.isc_a P.r_esr (stepP1 P s)).1 from rfl, h]
      unfold stepP1
      split_ifs with hon
      · exact Or.inr rfl
      · exact hbin

/-- The initial power mode is 0 or the on-state value. -/
lemma init_pmode_binary (sq : ℚ → ℚ) (P : Params) :
    (initState sq P).p_mode_w = 0 ∨ (initState sq P).p_mode_w = P.p_on_w := by
  show (if _ < P.v_thresh then 0
    else (resolvePower P.q0_c P.c_f (calc_solar_current irr_w_m2 P.sa_m2 P.eff P.voc) P.r_esr P.p_on_w).1) = 0 ∨
    (if _ < P.v_thresh then 0
    else (resolvePower P.q0_c P.c_f (calc_solar_current irr_w_m2 P.sa_m2 P.eff P.voc) P.r_esr P.p_on_w).1) = P.p_on_w
  split_ifs with hv
  · exact Or.inl rfl
  · exact resolvePower_fst _ _ _ _ _

/-- The power mode is binary at every reachable state. -/
lemma iter_pmode_binary (sq : ℚ → ℚ) (P : Params) :
    ∀ n, (iter sq P n).p_mode_w = 0 ∨ (iter sq P n).p_mode_w = P.p_on_w := by
  intro n
  induction n with
  | zero => exact init_pmode_binary sq P
  | succ n ih => exact step_pmode_binary sq P (iter sq P n) ih

/-- The source's charge clamp written with `if` agrees with the spec's
`max` clamp. -/
lemma clamp_eq (a : ℚ) : max 0 a = if a < 0 then 0 else a := by
  rcases lt_or_le a 0 with h | h
  · rw [if_pos h, max_eq_left h.le]
  · rw [if_neg (not_lt.mpr h), max_eq_right h]

/-- The spec's packaged node-voltage solve agrees with the source's
fallback-then-voltage computation. -/
lemma specSolve_eq (sq : ℚ → ℚ) (q c i r p : ℚ) :
    specSolve sq q c i r p
      = ((resolvePower q c i r p).1,
         calc_node_voltage sq (resolvePower q c i r p).2 q c i r) := by
  unfold specSolve resolvePower calc_node_discr calc_node_voltage
  dsimp only
  split_ifs with h
  · rw [Prod.mk.injEq]
    constructor
    · rfl
    · rw [mul_zero, zero_mul, sub_zero]
  · rfl

/-- The loop body satisfies its own relational description. -/
lemma stepRel_of_step (sq : ℚ → ℚ) (P : Params) (s : State) :
    StepRel sq P s (step sq P s).1 (step sq P s).2 :=
  ⟨stepI3 s, s.qt_c + (s.i1_a - stepI3 s) * P.dt_s, stepQ P s, stepP1 P s,
   stepPD P s, stepV sq P s,
   (if P.voc ≤ stepV sq P s ∧ s.isc_a ≠ 0 then 0 else s.isc_a),
   (if stepV sq P s < P.v_thresh then 0 else (stepPD P s).1),
   rfl, rfl, rfl, rfl, rfl, rfl, rfl, rfl, rfl, rfl⟩

/-- The relational loop body is deterministic. -/
lemma stepRel_det (sq : ℚ → ℚ) (P : Params) (s sA sB : State)
    (oA oB : ℚ × ℚ) (hA : StepRel sq P s sA oA) (hB : StepRel sq P s sB oB) :
    sA = sB ∧ oA = oB := by
  obtain ⟨i3, q1, q2, p1, pd, v, i1f, pf, h1, h2, h3, h4, h5, h6, h7, h8, h9, h10⟩ := hA
  obtain ⟨i3b, q1b, q2b, p1b, pdb, vb, i1fb, pfb, g1, g2, g3, g4, g5, g6, g7, g8, g9, g10⟩ := hB
  subst h1 h2 h3 h4 h5 h6 h7 h8
  subst g1 g2 g3 g4 g5 g6 g7 g8
  subst h9 h10 g9 g10
  exact ⟨rfl, rfl⟩

/-- The relational loop is deterministic: a starting state determines
the emitted sample list. -/
lemma runRel_det (sq : ℚ → ℚ) (P : Params) :
    ∀ (s : State) (lA lB : List (ℚ × ℚ)),
      RunRel sq P s lA → RunRel sq P s lB → lA = lB := by
  intro s lA lB hA
  induction hA generalizing lB with
  | done s hs =>
      intro hB
      cases hB with
      | done _ _ => rfl
      | more _ _ _ _ hlt _ _ => exact absurd hlt hs
  | more s s2 smp rest hlt hstep hrest ih =>
      intro hB
      cases hB with
      | done _ hs => exact absurd hlt hs
      | more _ s2b smpb restb hltb hstepb hrestb =>
          obtain ⟨hs2, hsmp⟩ := stepRel_det sq P s s2 s2b smp smpb hstep hstepb
          subst hs2
          rw [hsmp, ih restb hrestb]

/-! ### Claim theorems -/

/-- C4: for non-negative charge, source current, ESR and load power and
positive capacitance, whenever the discriminant is negative, the
discriminant recomputed with the load power forced to 0 is
non-negative; hence the fallback hands the square root a non-negative
argument, both in general and at every discriminant the loop body
produces. -/
theorem c4_discriminant_fallback (q c i r p : ℚ)
    (hq : 0 ≤ q) (hi : 0 ≤ i) (hr : 0 ≤ r) (hc : 0 < c) (hp : 0 ≤ p)
    (hneg : calc_node_discr q c i r p < 0) :
    0 ≤ calc_node_discr q c i r 0
    ∧ 0 ≤ (resolvePower q c i r p).2
    ∧ ∀ (P : Params) (s : State), 0 ≤ (stepPD P s).2 :=
  ⟨calc_node_discr_zero_nonneg q c i r, resolvePower_snd_nonneg q c i r p,
   fun P s => stepPD_snd_nonneg P s⟩

/-- Witness for C4: at charge 0, capacitance 1, source current 0, ESR 1
and load power 1 the discriminant is negative, and the fallback
discriminants are non-negative. -/
theorem c4_discriminant_fallback_witness :
    (0 ≤ (0:ℚ) ∧ 0 ≤ (0:ℚ) ∧ 0 ≤ (1:ℚ) ∧ 0 < (1:ℚ) ∧ 0 ≤ (1:ℚ)
      ∧ calc_node_discr 0 1 0 1 1 < 0)
    ∧ 0 ≤ calc_node_discr 0 1 0 1 0
    ∧ 0 ≤ (resolvePower 0 1 0 1 1).2
    ∧ 0 ≤ (stepPD Phys shys).2 := by
  have hneg : calc_node_discr 0 1 0 1 1 < 0 := by norm_num [calc_node_discr]
  have h := c4_discriminant_fallback 0 1 0 1 1 (le_refl 0) (le_refl 0)
    (by norm_num) (by norm_num) (by norm_num) hneg
  exact ⟨⟨le_refl 0, le_refl 0, by norm_num, by norm_num, by norm_num, hneg⟩,
    h.1, h.2.1, h.2.2 Phys shys⟩

/-- C5: with a non-negative initial charge, the stored charge is
non-negative at every recorded internal state (initialization and after
every loop iteration). -/
theorem c5_charge_nonneg (sq : ℚ → ℚ) (P : Params) (hq0 : 0 ≤ P.q0_c) :
    ∀ n, 0 ≤ (iter sq P n).qt_c := by
  intro n
  cases n with
  | zero => exact hq0
  | succ n => exact stepQ_nonneg P (iter sq P n)

/-- Witness for C5 at a concrete parameter set, two iterations in. -/
theorem c5_charge_nonneg_witness :
    0 ≤ Pone.q0_c ∧ 0 ≤ (iter sqZero Pone 2).qt_c :=
  ⟨le_refl 0, c5_charge_nonneg sqZero Pone (le_refl 0) 2⟩

/-- C6: for non-negative parameters with positive capacitance, and any
square-root model mapping non-negative inputs to non-negative outputs,
the node voltage produced by the solve is non-negative at every state
carrying a non-negative short-circuit current, and the voltage in every
emitted sample is non-negative. -/
theorem c6_voltage_nonneg (sq : ℚ → ℚ) (P : Params)
    (hsa : 0 ≤ P.sa_m2) (heff : 0 ≤ P.eff) (hvoc : 0 ≤ P.voc)
    (hc : 0 < P.c_f) (hr : 0 ≤ P.r_esr)
    (hsq : ∀ x : ℚ, 0 ≤ x → 0 ≤ sq x) :
    (∀ s : State, 0 ≤ s.isc_a → 0 ≤ stepV sq P s)
    ∧ ∀ x ∈ simRun sq P, 0 ≤ x.2 := by
  constructor
  · intro s hi
    exact stepV_nonneg sq P s hi hc.le hr hsq
  · intro x hx
    refine simLoop_snd_nonneg sq P hc.le hr hsq (fuelFor P) (initState sq P) ?_ x hx
    show 0 ≤ calc_solar_current irr_w_m2 P.sa_m2 P.eff P.voc
    exact calc_solar_current_nonneg _ _ _ hsa heff hvoc

/-- Witness for C6: concrete parameters, a concrete state, and the
concrete first emitted sample of the run. -/
theorem c6_voltage_nonneg_witness :
    (0 ≤ Pone.sa_m2 ∧ 0 ≤ Pone.eff ∧ 0 ≤ Pone.voc ∧ 0 < Pone.c_f ∧ 0 ≤ Pone.r_esr)
    ∧ 0 ≤ shys.isc_a
    ∧ 0 ≤ stepV sqZero Pone shys
    ∧ 0 ≤ (((0:ℚ), (13661:ℚ)/20)).2 := by
  have h := c6_voltage_nonneg sqZero Pone (by norm_num [Pone]) (by norm_num [Pone])
    (by norm_num [Pone]) (by norm_num [Pone]) (by norm_num [Pone])
    (fun x _ => le_refl 0)
  have hrun : simRun sqZero Pone = [((0:ℚ), (13661:ℚ)/20)] := by
    have hceil : Int.ceil (Pone.dur_s / Pone.dt_s) = 1 := by
      rw [Int.ceil_eq_iff]
      norm_num [Pone]
    rw [simRun, fuelFor, hceil]
    norm_num [initState, simLoop, step, stepV, stepPD, stepQ, stepP1, stepI3,
      resolvePower, calc_node_discr, calc_node_voltage, calc_solar_current,
      irr_w_m2, sqZero, Pone]
  refine ⟨⟨by norm_num [Pone], by norm_num [Pone], by norm_num [Pone],
    by norm_num [Pone], by norm_num [Pone]⟩, by norm_num [shys],
    h.1 shys (by norm_num [shys]), ?_⟩
  exact h.2 ((0:ℚ), (13661:ℚ)/20) (by rw [hrun]; exact List.mem_singleton.mpr rfl)

/-- C9: the simulation is deterministic — any two sample lists the
relational loop derives from the same initial state (hence from
identical parameters) are equal. -/
theorem c9_deterministic (sq : ℚ → ℚ) (P : Params) (lA lB : List (ℚ × ℚ))
    (hA : RunRel sq P (initState sq P) lA) (hB : RunRel sq P (initState sq P) lB) :
    lA = lB :=
  runRel_det sq P (initState sq P) lA lB hA hB

/-- Witness for C9: a concrete one-iteration derivation of the loop
relation, used twice. -/
theorem c9_deterministic_witness :
    RunRel sqZero Pone (initState sqZero Pone)
      [(step sqZero Pone (initState sqZero Pone)).2]
    ∧ [(step sqZero Pone (initState sqZero Pone)).2]
        = [(step sqZero Pone (initState sqZero Pone)).2] := by
  have h0 : (initState sqZero Pone).t_s < Pone.dur_s := by
    show (0:ℚ) < 1
    norm_num
  have h1 : ¬ (step sqZero Pone (initState sqZero Pone)).1.t_s < Pone.dur_s := by
    show ¬ ((0:ℚ) + 1 < 1)
    norm_num
  have hd : RunRel sqZero Pone (initState sqZero Pone)
      [(step sqZero Pone (initState sqZero Pone)).2] :=
    RunRel.more _ _ _ _ h0
      (stepRel_of_step sqZero Pone (initState sqZero Pone))
      (RunRel.done _ h1)
  exact ⟨hd, c9_deterministic sqZero Pone _ _ hd hd⟩

/-- C10 (implicit): if the initial node voltage already reaches `voc`
and the short-circuit current is nonzero, initialization zeroes the
source current before the loop starts, so the first iteration's charge
integration uses a zero source current. -/
theorem c10_initial_source_clamp (sq : ℚ → ℚ) (P : Params)
    (hv : P.voc ≤ (initState sq P).node_v)
    (hisc : calc_solar_current irr_w_m2 P.sa_m2 P.eff P.voc ≠ 0) :
    (initState sq P).i1_a = 0
    ∧ stepQ P (initState sq P)
        = (if (initState sq P).qt_c + (0 - stepI3 (initState sq P)) * P.dt_s < 0 then 0
           else (initState sq P).qt_c + (0 - stepI3 (initState sq P)) * P.dt_s) := by
  have hv2 : P.voc ≤ calc_node_voltage sq
      (resolvePower P.q0_c P.c_f (calc_solar_current irr_w_m2 P.sa_m2 P.eff P.voc)
        P.r_esr P.p_on_w).2
      P.q0_c P.c_f (calc_solar_current irr_w_m2 P.sa_m2 P.eff P.voc) P.r_esr := hv
  have h1 : (initState sq P).i1_a = 0 := by
    show (if P.voc ≤ calc_node_voltage sq
        (resolvePower P.q0_c P.c_f (calc_solar_current irr_w_m2 P.sa_m2 P.eff P.voc)
          P.r_esr P.p_on_w).2
        P.q0_c P.c_f (calc_solar_current irr_w_m2 P.sa_m2 P.eff P.voc) P.r_esr
        ∧ calc_solar_current irr_w_m2 P.sa_m2 P.eff P.voc ≠ 0 then 0
      else calc_solar_current irr_w_m2 P.sa_m2 P.eff P.voc) = 0
    rw [if_pos ⟨hv2, hisc⟩]
  refine ⟨h1, ?_⟩
  unfold stepQ
  rw [h1]

/-- Witness for C10: with a large initial charge the initial voltage
reaches `voc`, so the source current entering the first iteration is
zero. -/
theorem c10_initial_source_clamp_witness :
    (Pq10.voc ≤ (initState sqZero Pq10).node_v
      ∧ calc_solar_current irr_w_m2 Pq10.sa_m2 Pq10.eff Pq10.voc ≠ 0)
    ∧ (initState sqZero Pq10).i1_a = 0
    ∧ stepQ Pq10 (initState sqZero Pq10)
        = (if (initState sqZero Pq10).qt_c + (0 - stepI3 (initState sqZero Pq10)) * Pq10.dt_s < 0 then 0
           else (initState sqZero Pq10).qt_c + (0 - stepI3 (initState sqZero Pq10)) * Pq10.dt_s) := by
  have hv : Pq10.voc ≤ (initState sqZero Pq10).node_v := by
    have hval : (initState sqZero Pq10).node_v = 5 := by
      norm_num [initState, resolvePower, calc_node_discr, calc_node_voltage,
        calc_solar_current, irr_w_m2, sqZero, Pq10]
    rw [hval]
    norm_num [Pq10]
  have hisc : calc_solar_current irr_w_m2 Pq10.sa_m2 Pq10.eff Pq10.voc ≠ 0 := by
    norm_num [calc_solar_current, irr_w_m2, Pq10]
  exact ⟨⟨hv, hisc⟩, c10_initial_source_clamp sqZero Pq10 hv hisc⟩

/-- C3: hysteresis — on a step where the re-solved voltage is below the
threshold, the (last-performed) turn-off check forces the power mode to
0; on a step entered with the load off and the previous voltage at or
above `voc`, the turn-on check sets the power mode to the on-state
value, and that value survives to the end of the step provided the
solve with the on-state power is feasible and the re-solved voltage is
not below the threshold; and the power mode is binary, at the step's
end and at every reachable state. -/
theorem c3_hysteresis (sq : ℚ → ℚ) (P : Params) (s : State)
    (hbin : s.p_mode_w = 0 ∨ s.p_mode_w = P.p_on_w) :
    ((step sq P s).1.node_v < P.v_thresh → (step sq P s).1.p_mode_w = 0)
    ∧ (s.p_mode_w = 0 → P.voc ≤ s.node_v →
        0 ≤ calc_node_discr (stepQ P s) P.c_f s.isc_a P.r_esr P.p_on_w →
        ¬ (step sq P s).1.node_v < P.v_thresh →
        (step sq P s).1.p_mode_w = P.p_on_w)
    ∧ ((step sq P s).1.p_mode_w = 0 ∨ (step sq P s).1.p_mode_w = P.p_on_w)
    ∧ (∀ n, (iter sq P n).p_mode_w = 0 ∨ (iter sq P n).p_mode_w = P.p_on_w) := by
  refine ⟨?_, ?_, step_pmode_binary sq P s hbin, iter_pmode_binary sq P⟩
  · intro h
    have h2 : stepV sq P s < P.v_thresh := h
    show (if stepV sq P s < P.v_thresh then 0 else (stepPD P s).1) = 0
    rw [if_pos h2]
  · intro hp0 hvoc hfeas hnv
    have hnv2 : ¬ stepV sq P s < P.v_thresh := hnv
    have hp1 : stepP1 P s = P.p_on_w := by
      unfold stepP1
      rw [if_pos ⟨hp0, hvoc⟩]
    show (if stepV sq P s < P.v_thresh then 0 else (stepPD P s).1) = P.p_on_w
    rw [if_neg hnv2]
    show (resolvePower (stepQ P s) P.c_f s.isc_a P.r_esr (stepP1 P s)).1 = P.p_on_w
    rw [hp1]
    unfold resolvePower
    dsimp only
    rw [if_neg (not_lt.mpr hfeas)]

/-- Witness for C3: a concrete state with the load off and the node
voltage at `voc`. -/
theorem c3_hysteresis_witness :
    (shys.p_mode_w = 0 ∨ shys.p_mode_w = Phys.p_on_w)
    ∧ (((step sqZero Phys shys).1.node_v < Phys.v_thresh →
          (step sqZero Phys shys).1.p_mode_w = 0)
      ∧ (shys.p_mode_w = 0 → Phys.voc ≤ shys.node_v →
          0 ≤ calc_node_discr (stepQ Phys shys) Phys.c_f shys.isc_a Phys.r_esr Phys.p_on_w →
          ¬ (step sqZero Phys shys).1.node_v < Phys.v_thresh →
          (step sqZero Phys shys).1.p_mode_w = Phys.p_on_w)
      ∧ ((step sqZero Phys shys).1.p_mode_w = 0
          ∨ (step sqZero Phys shys).1.p_mode_w = Phys.p_on_w)
      ∧ (∀ n, (iter sqZero Phys n).p_mode_w = 0
          ∨ (iter sqZero Phys n).p_mode_w = Phys.p_on_w)) :=
  ⟨Or.inl rfl, c3_hysteresis sqZero Phys shys (Or.inl rfl)⟩

/-- C8: initialization computes `Isc = (1366.1 * area * eff) / Voc`,
takes the configured initial charge and time 0, solves the initial node
voltage starting from the on-state load power with the zero-load retry
when the discriminant is negative, and forces the power mode to 0 when
the resulting voltage is below the threshold (otherwise keeps the
solve's power). -/
theorem c8_initialize (sq : ℚ → ℚ) (P : Params) :
    (initState sq P).isc_a = 13661 / 10 * P.sa_m2 * P.eff / P.voc
    ∧ (initState sq P).qt_c = P.q0_c
    ∧ (initState sq P).t_s = 0
    ∧ (initState sq P).node_v
        = calc_node_voltage sq
            (resolvePower P.q0_c P.c_f (initState sq P).isc_a P.r_esr P.p_on_w).2
            P.q0_c P.c_f (initState sq P).isc_a P.r_esr
    ∧ (calc_node_discr P.q0_c P.c_f (initState sq P).isc_a P.r_esr P.p_on_w < 0 →
        (resolvePower P.q0_c P.c_f (initState sq P).isc_a P.r_esr P.p_on_w).1 = 0
        ∧ 0 ≤ (resolvePower P.q0_c P.c_f (initState sq P).isc_a P.r_esr P.p_on_w).2)
    ∧ ((initState sq P).node_v < P.v_thresh → (initState sq P).p_mode_w = 0)
    ∧ (¬ (initState sq P).node_v < P.v_thresh →
        (initState sq P).p_mode_w
          = (resolvePower P.q0_c P.c_f (initState sq P).isc_a P.r_esr P.p_on_w).1) := by
  refine ⟨rfl, rfl, rfl, rfl, ?_, ?_, ?_⟩
  · intro h
    unfold resolvePower
    dsimp only
    rw [if_pos h]
    exact ⟨rfl, calc_node_discr_zero_nonneg _ _ _ _⟩
  · intro h
    have h2 : calc_node_voltage sq
        (resolvePower P.q0_c P.c_f (calc_solar_current irr_w_m2 P.sa_m2 P.eff P.voc)
          P.r_esr P.p_on_w).2
        P.q0_c P.c_f (calc_solar_current irr_w_m2 P.sa_m2 P.eff P.voc) P.r_esr
        < P.v_thresh := h
    show (if calc_node_voltage sq
        (resolvePower P.q0_c P.c_f (calc_solar_current irr_w_m2 P.sa_m2 P.eff P.voc)
          P.r_esr P.p_on_w).2
        P.q0_c P.c_f (calc_solar_current irr_w_m2 P.sa_m2 P.eff P.voc) P.r_esr
        < P.v_thresh then 0
      else (resolvePower P.q0_c P.c_f (calc_solar_current irr_w_m2 P.sa_m2 P.eff P.voc)
        P.r_esr P.p_on_w).1) = 0
    rw [if_pos h2]
  · intro h
    have h2 : ¬ calc_node_voltage sq
        (resolvePower P.q0_c P.c_f (calc_solar_current irr_w_m2 P.sa_m2 P.eff P.voc)
          P.r_esr P.p_on_w).2
        P.q0_c P.c_f (calc_solar_current irr_w_m2 P.sa_m2 P.eff P.voc) P.r_esr
        < P.v_thresh := h
    show (if calc_node_voltage sq
        (resolvePower P.q0_c P.c_f (calc_solar_current irr_w_m2 P.sa_m2 P.eff P.voc)
          P.r_esr P.p_on_w).2
        P.q0_c P.c_f (calc_solar_current irr_w_m2 P.sa_m2 P.eff P.voc) P.r_esr
        < P.v_thresh then 0
      else (resolvePower P.q0_c P.c_f (calc_solar_current irr_w_m2 P.sa_m2 P.eff P.voc)
        P.r_esr P.p_on_w).1)
      = (resolvePower P.q0_c P.c_f (calc_solar_current irr_w_m2 P.sa_m2 P.eff P.voc)
        P.r_esr P.p_on_w).1
    rw [if_neg h2]

/-- Witness for C8 at a concrete parameter set. -/
theorem c8_initialize_witness :
    (initState sqZero Pone).isc_a = 13661 / 10 * Pone.sa_m2 * Pone.eff / Pone.voc
    ∧ (initState sqZero Pone).qt_c = Pone.q0_c
    ∧ (initState sqZero Pone).t_s = 0
    ∧ (initState sqZero Pone).node_v
        = calc_node_voltage sqZero
            (resolvePower Pone.q0_c Pone.c_f (initState sqZero Pone).isc_a Pone.r_esr Pone.p_on_w).2
            Pone.q0_c Pone.c_f (initState sqZero Pone).isc_a Pone.r_esr
    ∧ (calc_node_discr Pone.q0_c Pone.c_f (initState sqZero Pone).isc_a Pone.r_esr Pone.p_on_w < 0 →
        (resolvePower Pone.q0_c Pone.c_f (initState sqZero Pone).isc_a Pone.r_esr Pone.p_on_w).1 = 0
        ∧ 0 ≤ (resolvePower Pone.q0_c Pone.c_f (initState sqZero Pone).isc_a Pone.r_esr Pone.p_on_w).2)
    ∧ ((initState sqZero Pone).node_v < Pone.v_thresh → (initState sqZero Pone).p_mode_w = 0)
    ∧ (¬ (initState sqZero Pone).node_v < Pone.v_thresh →
        (initState sqZero Pone).p_mode_w
          = (resolvePower Pone.q0_c Pone.c_f (initState sqZero Pone).isc_a Pone.r_esr Pone.p_on_w).1) :=
  c8_initialize sqZero Pone

/-- C1 (amended): for `dt > 0` and `duration ≥ 0` the run emits exactly
`ceil(duration/dt)` samples, at times `0, dt, 2*dt, ...` (so the first
sample is at `t = 0` whenever any sample exists, times are strictly
increasing, and consecutive times are spaced by exactly `dt`), and
every emitted time is strictly less than the duration. -/
theorem c1_sample_times (sq : ℚ → ℚ) (P : Params)
    (hdt : 0 < P.dt_s) (hdur : 0 ≤ P.dur_s) :
    (simRun sq P).map Prod.fst
      = (List.range ((Int.ceil (P.dur_s / P.dt_s)).toNat)).map
          (fun (k : Nat) => (k : ℚ) * P.dt_s)
    ∧ ∀ x ∈ simRun sq P, x.1 < P.dur_s := by
  constructor
  · have ht : (P.dur_s - (initState sq P).t_s) / P.dt_s = P.dur_s / P.dt_s := by
      rw [show (initState sq P).t_s = 0 from rfl, sub_zero]
    have hfuel : (Int.ceil ((P.dur_s - (initState sq P).t_s) / P.dt_s)).toNat ≤ fuelFor P := by
      rw [ht]
      exact Nat.le_succ _
    have h := simLoop_map_fst sq P hdt (fuelFor P) (initState sq P) hfuel
    rw [ht] at h
    rw [simRun, h, show (initState sq P).t_s = 0 from rfl]
    refine List.map_congr_left ?_
    intro k _
    rw [zero_add]
  · intro x hx
    exact simLoop_fst_lt sq P (fuelFor P) (initState sq P) x hx

/-- Witness for C1 (amended): `dt = 1`, `duration = 5/2` gives sample
times `0, 1, 2`, all below `5/2`. -/
theorem c1_sample_times_witness :
    (0 < Phalf.dt_s ∧ 0 ≤ Phalf.dur_s)
    ∧ ((simRun sqZero Phalf).map Prod.fst
        = (List.range ((Int.ceil (Phalf.dur_s / Phalf.dt_s)).toNat)).map
            (fun (k : Nat) => (k : ℚ) * Phalf.dt_s)
      ∧ ∀ x ∈ simRun sqZero Phalf, x.1 < Phalf.dur_s) :=
  ⟨⟨by norm_num [Phalf], by norm_num [Phalf]⟩,
   c1_sample_times sqZero Phalf (by norm_num [Phalf]) (by norm_num [Phalf])⟩

/-- Counterexample for C1 as stated: with `dt = 1` and `duration = 1`
(a duration that is an exact multiple of the step) the run emits one
sample, not `floor(duration/dt) + 1 = 2`. -/
theorem c1_count_counterexample :
    ¬ ((simRun sqZero Pone).length = (Int.floor (Pone.dur_s / Pone.dt_s) + 1).toNat) := by
  have hceil : Int.ceil (Pone.dur_s / Pone.dt_s) = 1 := by
    rw [Int.ceil_eq_iff]
    norm_num [Pone]
  have hrun : simRun sqZero Pone = [((0:ℚ), (13661:ℚ)/20)] := by
    rw [simRun, fuelFor, hceil]
    norm_num [initState, simLoop, step, stepV, stepPD, stepQ, stepP1, stepI3,
      resolvePower, calc_node_discr, calc_node_voltage, calc_solar_current,
      irr_w_m2, sqZero, Pone]
  have hfloor : Int.floor (Pone.dur_s / Pone.dt_s) = 1 := by
    rw [Int.floor_eq_iff]
    norm_num [Pone]
  rw [hrun, hfloor]
  decide

/-- C2: the source performs no value validation at all — the argument
gate accepts any eleven-entry argument vector regardless of the values,
and with the spec-invalid efficiency 2 the simulation still runs and
produces a (nonempty) sample log, which the script then writes to
`log.csv`. -/
theorem c2_no_parameter_validation :
    argcGate 11 = true
    ∧ ¬ specValidParams Pbad
    ∧ simRun sqZero Pbad ≠ [] := by
  refine ⟨rfl, ?_, ?_⟩
  · intro h
    have h2 := h.2.1
    norm_num [Pbad] at h2
  · have hceil : Int.ceil (Pbad.dur_s / Pbad.dt_s) = 1 := by
      rw [Int.ceil_eq_iff]
      norm_num [Pbad]
    have hrun : simRun sqZero Pbad = [((0:ℚ), (13661:ℚ)/10)] := by
      rw [simRun, fuelFor, hceil]
      norm_num [initState, simLoop, step, stepV, stepPD, stepQ, stepP1, stepI3,
        resolvePower, calc_node_discr, calc_node_voltage, calc_solar_current,
        irr_w_m2, sqZero, Pbad]
    rw [hrun]
    simp

/-- C7: the loop body equals the spec's eight operations composed in
order — load current, charge integration with clamp, source-current
reset, hysteresis turn-on, node-voltage re-solve with fallback,
source-current clamp, hysteresis turn-off, then emission and time
advance. -/
theorem c7_step_order (sq : ℚ → ℚ) (P : Params) (s : State) :
    (step sq P s).1.t_s = (specOps sq P s.isc_a (ctxOf s)).t
    ∧ (step sq P s).1.qt_c = (specOps sq P s.isc_a (ctxOf s)).q
    ∧ (step sq P s).1.i1_a = (specOps sq P s.isc_a (ctxOf s)).i1
    ∧ (step sq P s).1.p_mode_w = (specOps sq P s.isc_a (ctxOf s)).p
    ∧ (step sq P s).1.node_v = (specOps sq P s.isc_a (ctxOf s)).v
    ∧ [(step sq P s).2] = (specOps sq P s.isc_a (ctxOf s)).out := by
  have hq : max 0 (s.qt_c + (s.i1_a - (if 0 < s.node_v then s.p_mode_w / s.node_v else 0)) * P.dt_s)
      = stepQ P s := by
    rw [clamp_eq]
    rfl
  have hp : (if s.p_mode_w = 0 ∧ P.voc ≤ s.node_v then P.p_on_w else s.p_mode_w)
      = stepP1 P s := rfl
  have hpd : resolvePower (stepQ P s) P.c_f s.isc_a P.r_esr (stepP1 P s) = stepPD P s := rfl
  have hv : calc_node_voltage sq (stepPD P s).2 (stepQ P s) P.c_f s.isc_a P.r_esr
      = stepV sq P s := rfl
  simp only [specOps, op8, op7, op6, op5, op4, op3, op2, op1, ctxOf, specSolve_eq,
    gt_iff_lt, ge_iff_le, List.nil_append]
  rw [hq, hp, hpd, hv]
  exact ⟨rfl, rfl, rfl, rfl, rfl, rfl⟩

end SimEnergySystemCap
